import Mathlib

/-!
Verification of the AirSig core (`utils.py`, pinch slice of `gui.py`).

Conventions of the embedding:
* Python `collections.deque(maxlen=n)` is modelled as a `List` whose HEAD is the
  NEWEST element (the right end of the Python deque); appending with a full
  deque evicts the oldest element, i.e. drops the last element of the list.
* Machine floats are modelled as exact rationals (`ℚ`); `np.pi` is embedded as
  the exact rational value of the IEEE-754 double closest to π.
* The canvas pixel buffer is an opaque type parameter: the undo/redo claims
  only concern which snapshots are stored and restored, never pixel contents;
  a drawing call is a canvas mutation `C → C`.
-/

set_option autoImplicit false

namespace AirSig

/-- `deque.append` with `maxlen`: new element becomes the head (right end of the
Python deque); when the deque is full the oldest element (our last) is evicted. -/
def dequeCons {α : Type} (maxlen : ℕ) (c : α) (l : List α) : List α :=
  if l.length < maxlen then c :: l else c :: l.dropLast

/-! ## DrawingEngine (utils.py lines 130-221)

The canvas type is abstract: `draw_line`/`erase` are in-place canvas mutations
whose pixel effect is irrelevant to the stack discipline; they are modelled by
`mutate` applied to an arbitrary function.  Python's `canvas.copy()` is the
identity on immutable values. -/

structure DrawingEngine (C : Type) where
  canvas : C
  undo_stack : List C
  redo_stack : List C
  deriving DecidableEq

namespace DrawingEngine

variable {C : Type}

/-- `save_state`: append a copy of the canvas to the undo deque (maxlen 20) and
clear the redo deque. -/
def save_state (e : DrawingEngine C) : DrawingEngine C :=
  { e with undo_stack := dequeCons 20 e.canvas e.undo_stack, redo_stack := [] }

/-- `__init__`: white canvas, empty stacks, then one `save_state()`. -/
def engineInit (white : C) : DrawingEngine C :=
  save_state { canvas := white, undo_stack := [], redo_stack := [] }

/-- `undo`: if more than one snapshot is stored, pop the top onto the redo
deque and set the canvas to the new top; otherwise report failure. -/
def undo (e : DrawingEngine C) : Bool × DrawingEngine C :=
  match e.undo_stack with
  | top :: newtop :: rest =>
      (true, { canvas := newtop, undo_stack := newtop :: rest,
               redo_stack := dequeCons 20 top e.redo_stack })
  | _ => (false, e)

/-- `redo`: if the redo deque is non-empty, pop its top, append it to the undo
deque, and make it the canvas; otherwise report failure. -/
def redo (e : DrawingEngine C) : Bool × DrawingEngine C :=
  match e.redo_stack with
  | s :: rest =>
      (true, { canvas := s, undo_stack := dequeCons 20 s e.undo_stack,
               redo_stack := rest })
  | [] => (false, e)

/-- A canvas mutation (`draw_line`, `erase`, direct pixel writes): mutates the
canvas in place, touching neither stack. -/
def mutate (e : DrawingEngine C) (f : C → C) : DrawingEngine C :=
  { e with canvas := f e.canvas }

end DrawingEngine

/-- The spec's §8 scenario over a two-valued canvas: `0` is the all-white
canvas, `1` is the canvas with the red segment (the only fact the scenario
needs about `draw_line` is that it changes the white canvas). -/
def c1AfterStroke : DrawingEngine ℕ :=
  (DrawingEngine.engineInit 0).save_state.mutate fun _ => 1

/-- C1: in the spec scenario (fresh engine, `save_state()`, draw the red
segment), the mutation is visible and `undo()` restores the all-white canvas,
but `redo()` also yields the all-white canvas — the post-stroke canvas was
never pushed onto any stack, so the red segment is unrecoverable and the
claimed undo/redo round trip fails. -/
theorem c1_redo_restores_white_not_red :
    c1AfterStroke.canvas = 1 ∧
    c1AfterStroke.undo.1 = true ∧
    c1AfterStroke.undo.2.canvas = 0 ∧
    c1AfterStroke.undo.2.redo.1 = true ∧
    c1AfterStroke.undo.2.redo.2.canvas = 0 := by
  decide

/-- C2: `save_state()` puts the current canvas on top of the undo deque and
empties the redo deque; the undo deque is bounded by 20 with the oldest
snapshot evicted when full; and after any `undo()`, a new `save_state()`
makes an immediately following `redo()` return failure. -/
theorem c2_save_state_pushes_bounds_and_invalidates_redo
    (C : Type) (e : DrawingEngine C) :
    e.save_state.redo_stack = [] ∧
    e.save_state.undo_stack.head? = some e.canvas ∧
    (e.undo_stack.length ≤ 20 →
      e.save_state.undo_stack.length = min (e.undo_stack.length + 1) 20) ∧
    (e.undo_stack.length = 20 →
      e.save_state.undo_stack = e.canvas :: e.undo_stack.dropLast) ∧
    e.undo.2.save_state.redo.1 = false := by
  refine ⟨rfl, ?_, ?_, ?_, ?_⟩
  · simp [DrawingEngine.save_state, dequeCons]
    split <;> rfl
  · intro hle
    simp only [DrawingEngine.save_state, dequeCons]
    split
    · simp; omega
    · simp only [List.length_cons, List.length_dropLast]
      omega
  · intro h20
    simp [DrawingEngine.save_state, dequeCons, h20]
  · simp [DrawingEngine.save_state, DrawingEngine.redo]

/-- Witness for C2 at concrete engines, covering the bounded branch (length 20,
oldest evicted) and the undo-save-redo failure branch. -/
theorem c2_save_state_witness :
    ((⟨7, [1, 2], [3]⟩ : DrawingEngine ℕ).save_state.undo_stack.length
        = min ((2 : ℕ) + 1) 20) ∧
    ((⟨7, List.replicate 20 1, []⟩ : DrawingEngine ℕ).save_state.undo_stack
        = 7 :: (List.replicate 20 (1 : ℕ)).dropLast) ∧
    ((⟨7, [1, 2], [3]⟩ : DrawingEngine ℕ).undo.2.save_state.redo.1 = false) := by
  refine ⟨?_, ?_, ?_⟩
  · exact (c2_save_state_pushes_bounds_and_invalidates_redo ℕ ⟨7, [1, 2], [3]⟩).2.2.1
      (by decide)
  · exact (c2_save_state_pushes_bounds_and_invalidates_redo ℕ
      ⟨7, List.replicate 20 1, []⟩).2.2.2.1 (by decide)
  · exact (c2_save_state_pushes_bounds_and_invalidates_redo ℕ ⟨7, [1, 2], [3]⟩).2.2.2.2

/-- C3: `undo()` on an engine whose undo deque holds exactly one snapshot
returns failure and changes nothing; with more than one snapshot it pops the
top onto the redo deque, keeps the rest, and sets the canvas to the new top;
and whenever the undo deque is non-empty it is still non-empty after `undo()`. -/
theorem c3_undo_floor_and_pop
    (C : Type) (e : DrawingEngine C) :
    (e.undo_stack.length = 1 → e.undo = (false, e)) ∧
    (∀ top newtop rest, e.undo_stack = top :: newtop :: rest →
      e.undo.1 = true ∧
      e.undo.2.canvas = newtop ∧
      e.undo.2.undo_stack = newtop :: rest ∧
      e.undo.2.redo_stack.head? = some top) ∧
    (e.undo_stack ≠ [] → e.undo.2.undo_stack ≠ []) := by
  refine ⟨?_, ?_, ?_⟩
  · intro h1
    match he : e.undo_stack with
    | [] => simp [he] at h1
    | [a] => simp [DrawingEngine.undo, he]
    | a :: b :: l => simp [he] at h1
  · intro top newtop rest hstack
    simp only [DrawingEngine.undo, hstack]
    refine ⟨trivial, trivial, trivial, ?_⟩
    simp only [dequeCons]
    split <;> rfl
  · intro hne
    match he : e.undo_stack with
    | [] => exact absurd he hne
    | [a] => simp [DrawingEngine.undo, he]
    | a :: b :: l => simp [DrawingEngine.undo, he]

/-- Witness for C3: the floor case on a one-snapshot engine and the pop case on
a two-snapshot engine. -/
theorem c3_undo_witness :
    ((⟨5, [1], []⟩ : DrawingEngine ℕ).undo = (false, ⟨5, [1], []⟩)) ∧
    ((⟨5, [1, 2], []⟩ : DrawingEngine ℕ).undo.2.canvas = 2) ∧
    ((⟨5, [1, 2], []⟩ : DrawingEngine ℕ).undo.2.undo_stack ≠ []) := by
  refine ⟨?_, ?_, ?_⟩
  · exact (c3_undo_floor_and_pop ℕ ⟨5, [1], []⟩).1 rfl
  · exact ((c3_undo_floor_and_pop ℕ ⟨5, [1, 2], []⟩).2.1 1 2 [] rfl).2.1
  · exact (c3_undo_floor_and_pop ℕ ⟨5, [1, 2], []⟩).2.2 (by decide)

/-! ## OneEuroFilter (utils.py lines 12-65)

Floats are embedded as exact rationals; `np.pi` is the exact rational value of
the IEEE-754 double nearest π, which is what the source multiplies by. -/

/-- `np.pi` as an exact rational: the IEEE-754 double closest to π equals
884279719003555 / 2^48. -/
def npPi : ℚ := 884279719003555 / 281474976710656

/-- `_alpha` (utils.py lines 58-61): smoothing coefficient derived from the
time step and a cutoff frequency. -/
def alphaOf (dt cutoff : ℚ) : ℚ :=
  let tau := 1 / (2 * npPi * cutoff)
  1 / (1 + tau / dt)

/-- `_smooth` (utils.py lines 63-65): one exponential smoothing step. -/
def smoothOf (x x_prev a : ℚ) : ℚ := a * x + (1 - a) * x_prev

structure OneEuroFilter where
  min_cutoff : ℚ
  beta : ℚ
  d_cutoff : ℚ
  x_prev : Option ℚ
  dx_prev : ℚ
  t_prev : Option ℚ
  deriving DecidableEq

namespace OneEuroFilter

/-- `__init__` with its default parameters (0.5, 0.005, 1.0). -/
def mkDefault : OneEuroFilter :=
  { min_cutoff := 1/2, beta := 1/200, d_cutoff := 1
    x_prev := none, dx_prev := 0, t_prev := none }

/-- `__init__` with explicit `min_cutoff` and `beta` (`d_cutoff` left at its
default 1.0), the form `PointSmoother.__init__` uses. -/
def mkWith (min_cutoff beta : ℚ) : OneEuroFilter :=
  { min_cutoff := min_cutoff, beta := beta, d_cutoff := 1
    x_prev := none, dx_prev := 0, t_prev := none }

/-- `__call__` (utils.py lines 26-56).  The time is an explicit argument (the
source defaults it to the wall clock).  `f.t_prev.getD t`: the source sets
`x_prev` and `t_prev` together, so whenever `x_prev` is present `t_prev` is
too and the `getD` default is never read. -/
def call (f : OneEuroFilter) (x t : ℚ) : ℚ × OneEuroFilter :=
  match f.x_prev with
  | none => (x, { f with x_prev := some x, t_prev := some t })
  | some xp =>
      let tp := f.t_prev.getD t
      let dt0 := t - tp
      let dt := if dt0 ≤ 0 then 1 / 1000 else dt0
      let dx := (x - xp) / dt
      let edx := smoothOf dx f.dx_prev (alphaOf dt f.d_cutoff)
      let cutoff := f.min_cutoff + f.beta * |edx|
      let x_filtered := smoothOf x xp (alphaOf dt cutoff)
      (x_filtered,
        { f with x_prev := some x_filtered, dx_prev := edx, t_prev := some t })

/-- The filter update exactly as claim C5 words it: identical to the source
computation except that `dt = max(timestamp - prev_timestamp, 0.001)`. -/
def specCallMaxDt (f : OneEuroFilter) (x t : ℚ) : ℚ × OneEuroFilter :=
  match f.x_prev with
  | none => (x, { f with x_prev := some x, t_prev := some t })
  | some xp =>
      let tp := f.t_prev.getD t
      let dt := max (t - tp) (1 / 1000)
      let dx := (x - xp) / dt
      let edx := smoothOf dx f.dx_prev (alphaOf dt f.d_cutoff)
      let cutoff := f.min_cutoff + f.beta * |edx|
      let x_filtered := smoothOf x xp (alphaOf dt cutoff)
      (x_filtered,
        { f with x_prev := some x_filtered, dx_prev := edx, t_prev := some t })

/-- The filter update as claim C5 reads after amendment: `dt` is the raw
timestamp difference when it is positive and 0.001 otherwise (the source
clamps only non-positive differences; it does not take a max), then the
derivative is smoothed with the coefficient from `dt` and `d_cutoff`,
`cutoff = min_cutoff + beta * |smoothed_derivative|`, and the value is
smoothed with `alpha = 1/(1 + tau/dt)`, `tau = 1/(2*pi*cutoff)`. -/
def specCallAmended (f : OneEuroFilter) (x t : ℚ) : ℚ × OneEuroFilter :=
  match f.x_prev with
  | none => (x, { f with x_prev := some x, t_prev := some t })
  | some xp =>
      let tp := f.t_prev.getD t
      let dt := if 0 < t - tp then t - tp else 1 / 1000
      let dx := (x - xp) / dt
      let alpha_d := 1 / (1 + (1 / (2 * npPi * f.d_cutoff)) / dt)
      let edx := alpha_d * dx + (1 - alpha_d) * f.dx_prev
      let cutoff := f.min_cutoff + f.beta * |edx|
      let tau := 1 / (2 * npPi * cutoff)
      let alpha := 1 / (1 + tau / dt)
      let x_filtered := alpha * x + (1 - alpha) * xp
      (x_filtered,
        { f with x_prev := some x_filtered, dx_prev := edx, t_prev := some t })

end OneEuroFilter

/-- An initialized filter with the default parameters, previous value 0 at
previous time 0 (the state after a first call with value 0 at time 0). -/
def initializedFilter : OneEuroFilter :=
  { OneEuroFilter.mkDefault with x_prev := some 0, t_prev := some 0 }

/-- Counterexample to C5: at a repeated-call time difference of 0.0005 —
positive but below epsilon — the source keeps `dt = 0.0005` while the claimed
`dt = max(diff, 0.001)` forces 0.001, and the outputs differ. -/
theorem c5_dt_is_not_max_counterexample :
    (initializedFilter.call 100 (1/2000)).1 ≠
      (initializedFilter.specCallMaxDt 100 (1/2000)).1 := by
  norm_num [initializedFilter, OneEuroFilter.mkDefault, OneEuroFilter.call,
    OneEuroFilter.specCallMaxDt, Option.getD_some, smoothOf, alphaOf, npPi,
    max_def, abs_of_nonneg]

/-- C5 as amended: the source filter implements the claimed algorithm once
`dt = max(diff, epsilon)` is replaced by `dt = diff` when positive and
`epsilon` otherwise; first call stores and returns the input, later calls
smooth the raw derivative with the `d_cutoff` coefficient, derive
`cutoff = min_cutoff + beta*|edx|` and smooth the value with
`alpha = 1/(1+tau/dt)`, `tau = 1/(2*pi*cutoff)`. -/
theorem c5_call_implements_amended_algorithm (f : OneEuroFilter) (x t : ℚ) :
    f.call x t = f.specCallAmended x t := by
  cases hf : f.x_prev with
  | none =>
      simp only [OneEuroFilter.call, OneEuroFilter.specCallAmended, hf]
  | some xp =>
      simp only [OneEuroFilter.call, OneEuroFilter.specCallAmended, hf,
        smoothOf, alphaOf]
      have hdt : (if t - f.t_prev.getD t ≤ 0 then (1:ℚ)/1000
            else t - f.t_prev.getD t) =
          (if 0 < t - f.t_prev.getD t then t - f.t_prev.getD t else 1/1000) := by
        rcases le_or_lt (t - f.t_prev.getD t) 0 with h | h
        · rw [if_pos h, if_neg (not_lt.mpr h)]
        · rw [if_neg (not_le.mpr h), if_pos h]
      rw [hdt]

/-! Positivity facts for the smoothing coefficient, used by C8. -/

theorem npPi_pos : 0 < npPi := by norm_num [npPi]

theorem alphaOf_pos_le_one (dt cutoff : ℚ) (hdt : 0 < dt) (hc : 0 < cutoff) :
    0 < alphaOf dt cutoff ∧ alphaOf dt cutoff ≤ 1 := by
  have hpi := npPi_pos
  unfold alphaOf
  have htau : 0 < 1 / (2 * npPi * cutoff) := by positivity
  have hq : 0 < 1 / (2 * npPi * cutoff) / dt := by positivity
  constructor
  · positivity
  · rw [div_le_one (by linarith)]
    linarith

theorem smoothOf_between (x xp a : ℚ) (h0 : 0 ≤ a) (h1 : a ≤ 1) :
    min xp x ≤ smoothOf x xp a ∧ smoothOf x xp a ≤ max xp x ∧
      |smoothOf x xp a - x| ≤ |xp - x| := by
  unfold smoothOf
  refine ⟨?_, ?_, ?_⟩
  · rcases le_total xp x with h | h
    · rw [min_eq_left h]; nlinarith
    · rw [min_eq_right h]; nlinarith
  · rcases le_total xp x with h | h
    · rw [max_eq_right h]; nlinarith
    · rw [max_eq_left h]; nlinarith
  · have key : a * x + (1 - a) * xp - x = (1 - a) * (xp - x) := by ring
    rw [key, abs_mul, abs_of_nonneg (by linarith : (0:ℚ) ≤ 1 - a)]
    nlinarith [abs_nonneg (xp - x)]

/-- C8: one step of the filter on an initialized state with positive
`min_cutoff`, non-negative `beta`, positive `d_cutoff`, and a strictly later
timestamp produces an output between the previous output and the input: the
step response approaches the input monotonically and never overshoots it. -/
theorem c8_step_stays_between_prev_and_input
    (f : OneEuroFilter) (xp tp c t : ℚ)
    (hx : f.x_prev = some xp) (ht : f.t_prev = some tp)
    (hmc : 0 < f.min_cutoff) (hb : 0 ≤ f.beta) (hdc : 0 < f.d_cutoff)
    (hlt : tp < t) :
    min xp c ≤ (f.call c t).1 ∧ (f.call c t).1 ≤ max xp c ∧
      |(f.call c t).1 - c| ≤ |xp - c| := by
  have hdt0 : (0:ℚ) < t - tp := by linarith
  obtain ⟨mc, b, dc, xprev, dxp, tprev⟩ := f
  simp only at hx ht hmc hb hdc
  subst hx ht
  simp only [OneEuroFilter.call, Option.getD_some]
  rw [if_neg (not_le.mpr hdt0)]
  set edx := smoothOf ((c - xp) / (t - tp)) dxp (alphaOf (t - tp) dc) with hedx
  have hcut : 0 < mc + b * |edx| := by
    have : 0 ≤ b * |edx| := mul_nonneg hb (abs_nonneg _)
    linarith
  obtain ⟨ha0, ha1⟩ := alphaOf_pos_le_one (t - tp) (mc + b * |edx|) hdt0 hcut
  exact smoothOf_between c xp (alphaOf (t - tp) (mc + b * |edx|)) (le_of_lt ha0) ha1

/-- Witness for C8: the initialized default filter fed a step to 100 at time 1
stays within [0, 100] and does not move away from 100. -/
theorem c8_step_witness :
    ((0:ℚ) < initializedFilter.min_cutoff ∧ (0:ℚ) ≤ initializedFilter.beta ∧
      (0:ℚ) < initializedFilter.d_cutoff ∧ (0:ℚ) < 1) ∧
    (min (0:ℚ) 100 ≤ (initializedFilter.call 100 1).1 ∧
      (initializedFilter.call 100 1).1 ≤ max (0:ℚ) 100 ∧
      |(initializedFilter.call 100 1).1 - 100| ≤ |(0:ℚ) - 100|) :=
  ⟨⟨by norm_num [initializedFilter, OneEuroFilter.mkDefault],
    by norm_num [initializedFilter, OneEuroFilter.mkDefault],
    by norm_num [initializedFilter, OneEuroFilter.mkDefault], by norm_num⟩,
   c8_step_stays_between_prev_and_input initializedFilter 0 0 100 1 rfl rfl
     (by norm_num [initializedFilter, OneEuroFilter.mkDefault])
     (by norm_num [initializedFilter, OneEuroFilter.mkDefault])
     (by norm_num [initializedFilter, OneEuroFilter.mkDefault]) (by norm_num)⟩

/-! ## PointSmoother (utils.py lines 68-127)

Points are integer pixel pairs (the spec's data model); the one-euro filters
operate on their rational casts.  `int()` is Python truncation toward zero. -/

inductive Stabilization
  | low
  | medium
  | high
  deriving DecidableEq

/-- Python `int()` on a rational: truncation toward zero. -/
def pyInt (q : ℚ) : ℤ := if 0 ≤ q then ⌊q⌋ else ⌈q⌉

theorem pyInt_intCast (n : ℤ) : pyInt (n : ℚ) = n := by
  unfold pyInt
  split
  · exact_mod_cast Int.floor_intCast (α := ℚ) n
  · exact_mod_cast Int.ceil_intCast (α := ℚ) n

structure PointSmoother where
  window_size : ℕ
  jitter_threshold : ℤ
  stabilization : Stabilization
  filter_x : OneEuroFilter
  filter_y : OneEuroFilter
  point_history : List (ℚ × ℚ)
  last_stable_point : Option (ℤ × ℤ)
  deriving DecidableEq

namespace PointSmoother

/-- `__init__` (utils.py lines 70-90).  The `window_size` argument is
overwritten in every stabilization branch of the source, so it is dead here
as well (hence the underscore). -/
def init (_window_size : ℕ) (jitter_threshold : ℤ)
    (stabilization : Stabilization) : PointSmoother :=
  match stabilization with
  | .low =>
      { window_size := 2, jitter_threshold := jitter_threshold
        stabilization := .low
        filter_x := OneEuroFilter.mkWith 1 (1/100)
        filter_y := OneEuroFilter.mkWith 1 (1/100)
        point_history := [], last_stable_point := none }
  | .medium =>
      { window_size := 3, jitter_threshold := jitter_threshold
        stabilization := .medium
        filter_x := OneEuroFilter.mkWith (1/2) (1/200)
        filter_y := OneEuroFilter.mkWith (1/2) (1/200)
        point_history := [], last_stable_point := none }
  | .high =>
      { window_size := 5, jitter_threshold := jitter_threshold
        stabilization := .high
        filter_x := OneEuroFilter.mkWith (3/10) (3/1000)
        filter_y := OneEuroFilter.mkWith (3/10) (3/1000)
        point_history := [], last_stable_point := none }

/-- The unguarded tail of `smooth` (utils.py lines 106-122): run both one-euro
filters, append to the bounded history, return the truncated moving average
and record it as the new stable point.  (The `0 < length` test is the source's
`if len(self.point_history) > 0`, always true after the append.) -/
def smoothCore (s : PointSmoother) (x y : ℤ) (t : ℚ) :
    Option (ℤ × ℤ) × PointSmoother :=
  let rx := s.filter_x.call (x : ℚ) t
  let ry := s.filter_y.call (y : ℚ) t
  let hist := dequeCons s.window_size (rx.1, ry.1) s.point_history
  let result : ℤ × ℤ :=
    if 0 < hist.length then
      (pyInt ((hist.map Prod.fst).sum / (hist.length : ℚ)),
       pyInt ((hist.map Prod.snd).sum / (hist.length : ℚ)))
    else (pyInt rx.1, pyInt ry.1)
  (some result,
    { s with filter_x := rx.2, filter_y := ry.2, point_history := hist,
             last_stable_point := some result })

/-- `smooth` (utils.py lines 92-122).  `if self.last_stable_point:` is Python
truthiness of an optional pair, i.e. presence (a pair is never empty). -/
def smooth (s : PointSmoother) (point : Option (ℤ × ℤ)) (t : ℚ) :
    Option (ℤ × ℤ) × PointSmoother :=
  match point with
  | none => (none, s)
  | some (x, y) =>
      match s.last_stable_point with
      | some (sx, sy) =>
          if |x - sx| < s.jitter_threshold ∧ |y - sy| < s.jitter_threshold then
            (some (sx, sy), s)
          else smoothCore s x y t
      | none => smoothCore s x y t

/-- `reset` (utils.py lines 124-127): the source replaces the two filters with
default-parameter `OneEuroFilter()`s and touches nothing else. -/
def reset (s : PointSmoother) : PointSmoother :=
  { s with filter_x := OneEuroFilter.mkDefault, filter_y := OneEuroFilter.mkDefault }

end PointSmoother

/-- A high-stabilization smoother after one accepted point: its history and
stable point are populated and its filters carry the high-level parameters. -/
def smootherAfterOnePoint : PointSmoother :=
  ((PointSmoother.init 3 5 .high).smooth (some (100, 100)) 0).2

/-- Counterexample to C4: after `reset()` on a high-stabilization smoother
that has accepted a point, the moving-average history is NOT empty, the last
stable point is NOT cleared, and the filters carry the default parameters
(min_cutoff 0.5), not the configured high-stabilization ones (0.3). -/
theorem c4_reset_keeps_history_counterexample :
    smootherAfterOnePoint.reset.point_history ≠ [] ∧
    smootherAfterOnePoint.reset.last_stable_point ≠ none ∧
    smootherAfterOnePoint.reset.filter_x.min_cutoff ≠ 3/10 := by
  refine ⟨?_, ?_, ?_⟩ <;>
    norm_num [smootherAfterOnePoint, PointSmoother.init, PointSmoother.smooth,
      PointSmoother.smoothCore, PointSmoother.reset, OneEuroFilter.mkWith,
      OneEuroFilter.mkDefault, OneEuroFilter.call, dequeCons, pyInt]
  exact Option.some_ne_none _

/-- C4 as amended: `reset()` only replaces the two per-axis filters with fresh
uninitialized default-parameter filters (min_cutoff 0.5, beta 0.005, d_cutoff
1.0); the moving-average history, the last stable point, and the configuration
fields are all retained — in particular, a post-reset `smooth()` whose input is
within the jitter threshold of the retained stable point still returns that
stale point, unlike a freshly constructed smoother. -/
theorem c4_reset_replaces_only_filters (s : PointSmoother) :
    s.reset.filter_x = OneEuroFilter.mkDefault ∧
    s.reset.filter_y = OneEuroFilter.mkDefault ∧
    s.reset.point_history = s.point_history ∧
    s.reset.last_stable_point = s.last_stable_point ∧
    s.reset.window_size = s.window_size ∧
    s.reset.jitter_threshold = s.jitter_threshold ∧
    (∀ (sx sy x y : ℤ) (t : ℚ), s.last_stable_point = some (sx, sy) →
      |x - sx| < s.jitter_threshold → |y - sy| < s.jitter_threshold →
      (s.reset.smooth (some (x, y)) t).1 = some (sx, sy)) := by
  refine ⟨rfl, rfl, rfl, rfl, rfl, rfl, ?_⟩
  intro sx sy x y t hls hx hy
  simp [PointSmoother.smooth, PointSmoother.reset, hls, hx, hy]

/-- Witness for C4's amended theorem: a smoother holding stable point (50, 50)
still returns it for the nearby input (52, 49) after `reset()`. -/
theorem c4_reset_witness :
    ((⟨3, 5, .high, OneEuroFilter.mkDefault, OneEuroFilter.mkDefault,
        [], some (50, 50)⟩ : PointSmoother).reset.smooth
      (some (52, 49)) 0).1 = some (50, 50) :=
  (c4_reset_replaces_only_filters
      ⟨3, 5, .high, OneEuroFilter.mkDefault, OneEuroFilter.mkDefault,
        [], some (50, 50)⟩).2.2.2.2.2.2
    50 50 52 49 0 rfl (by norm_num) (by norm_num)

/-- Feed the same point repeatedly (at the given timestamps) through the
smoother, collecting each call's output. -/
def outputsRepeated (s : PointSmoother) (p : ℤ × ℤ) : List ℚ → List (Option (ℤ × ℤ))
  | [] => []
  | t :: ts =>
      let r := s.smooth (some p) t
      r.1 :: outputsRepeated r.2 p ts

theorem smooth_gate_fixpoint (s : PointSmoother) (x y : ℤ) (t : ℚ)
    (h : s.last_stable_point = some (x, y)) (hj : 0 < s.jitter_threshold) :
    s.smooth (some (x, y)) t = (some (x, y), s) := by
  simp [PointSmoother.smooth, h, hj]

theorem dequeCons_nil {α : Type} (n : ℕ) (c : α) : dequeCons n c [] = [c] := by
  unfold dequeCons; split <;> rfl

/-- On a smoother with no stable point, uninitialized filters, and empty
history (a fresh smoother), the first `smooth` call returns the input point
itself and records it as the stable point: the filters pass the first sample
through and the moving average of the singleton history is exact. -/
theorem smooth_fresh_returns_input (s : PointSmoother) (x y : ℤ) (t : ℚ)
    (hls : s.last_stable_point = none)
    (hfx : s.filter_x.x_prev = none) (hfy : s.filter_y.x_prev = none)
    (hph : s.point_history = []) :
    (s.smooth (some (x, y)) t).1 = some (x, y) ∧
    (s.smooth (some (x, y)) t).2.last_stable_point = some (x, y) ∧
    (s.smooth (some (x, y)) t).2.jitter_threshold = s.jitter_threshold := by
  simp only [PointSmoother.smooth, hls, PointSmoother.smoothCore,
    OneEuroFilter.call, hfx, hfy, hph, dequeCons_nil]
  norm_num [pyInt_intCast]

theorem outputsRepeated_of_stable (s : PointSmoother) (x y : ℤ) (ts : List ℚ)
    (h : s.last_stable_point = some (x, y)) (hj : 0 < s.jitter_threshold) :
    outputsRepeated s (x, y) ts = List.replicate ts.length (some (x, y)) := by
  induction ts with
  | nil => rfl
  | cons t ts ih =>
      simp only [outputsRepeated, smooth_gate_fixpoint s x y t h hj,
        List.length_cons, List.replicate_succ]
      exact congrArg _ ih

theorem pointSmoother_init_fields (ws : ℕ) (j : ℤ) (stab : Stabilization) :
    (PointSmoother.init ws j stab).last_stable_point = none ∧
    (PointSmoother.init ws j stab).filter_x.x_prev = none ∧
    (PointSmoother.init ws j stab).filter_y.x_prev = none ∧
    (PointSmoother.init ws j stab).point_history = [] ∧
    (PointSmoother.init ws j stab).jitter_threshold = j := by
  cases stab <;> simp [PointSmoother.init, OneEuroFilter.mkWith]

/-- C9: (a) whenever a stable point exists and both axis deltas of the input
are below the jitter threshold, `smooth` returns the stable point and leaves
the whole smoother state unchanged; (b) for any fresh smoother with a positive
jitter threshold fed the same point at every timestamp, every call — the first
included — returns that same point. -/
theorem c9_jitter_gate_idempotent :
    (∀ (s : PointSmoother) (x y sx sy : ℤ) (t : ℚ),
        s.last_stable_point = some (sx, sy) →
        |x - sx| < s.jitter_threshold → |y - sy| < s.jitter_threshold →
        s.smooth (some (x, y)) t = (some (sx, sy), s)) ∧
    (∀ (ws : ℕ) (j : ℤ) (stab : Stabilization) (p : ℤ × ℤ) (t : ℚ) (ts : List ℚ),
        0 < j →
        outputsRepeated (PointSmoother.init ws j stab) p (t :: ts) =
          List.replicate (ts.length + 1) (some p)) := by
  constructor
  · intro s x y sx sy t h hx hy
    simp [PointSmoother.smooth, h, hx, hy]
  · intro ws j stab p t ts hj
    obtain ⟨x, y⟩ := p
    obtain ⟨hls, hfx, hfy, hph, hjt⟩ := pointSmoother_init_fields ws j stab
    obtain ⟨h1, h2, h3⟩ :=
      smooth_fresh_returns_input (PointSmoother.init ws j stab) x y t hls hfx hfy hph
    simp only [outputsRepeated, h1, List.replicate_succ]
    refine congrArg _ ?_
    exact outputsRepeated_of_stable _ x y ts h2 (by rw [h3, hjt]; exact hj)

/-- Witness for C9: the gate fires on a concrete smoother holding (50, 50) fed
(52, 49), and a fresh high-stabilization smoother fed (10, 20) three times
returns (10, 20) three times. -/
theorem c9_jitter_gate_witness :
    ((⟨3, 5, .medium, OneEuroFilter.mkDefault, OneEuroFilter.mkDefault,
        [], some (50, 50)⟩ : PointSmoother).smooth (some (52, 49)) 0 =
      (some (50, 50),
        ⟨3, 5, .medium, OneEuroFilter.mkDefault, OneEuroFilter.mkDefault,
          [], some (50, 50)⟩)) ∧
    (outputsRepeated (PointSmoother.init 3 5 .high) (10, 20) [0, 1, 2] =
      List.replicate 3 (some (10, 20))) :=
  ⟨c9_jitter_gate_idempotent.1
      ⟨3, 5, .medium, OneEuroFilter.mkDefault, OneEuroFilter.mkDefault,
        [], some (50, 50)⟩ 52 49 50 50 0 rfl (by norm_num) (by norm_num),
   c9_jitter_gate_idempotent.2 3 5 .high (10, 20) 0 [1, 2] (by norm_num)⟩

/-! ## GestureRecognizer (utils.py lines 224-318) -/

inductive Gesture
  | none
  | fist
  | palm_open
  | erase
  | pinch
  | draw
  | navigate
  deriving DecidableEq

/-- A landmark entry `(id, x, y)` in frame-pixel coordinates. -/
abbrev Landmark := ℤ × ℤ × ℤ

/-- Squared pixel distance between two landmarks.  `_distance` (utils.py
lines 316-318) returns the square root of this; every use of `_distance` is a
comparison of distances, and since the square root is monotone on
non-negative reals those comparisons are exactly the comparisons of the
squares (40 pixels becomes 1600). -/
def distSq (p q : Landmark) : ℤ := (p.2.1 - q.2.1)^2 + (p.2.2 - q.2.2)^2

/-- `_get_finger_states` (utils.py lines 287-314): `[thumb, index, middle,
ring, pinky]`, the source's 1/0 entries as booleans.  Thumb: tip farther from
the wrist than the IP joint.  Other fingers: tip y strictly above (less than)
the PIP joint y.  The `getD` defaults are never read behind the callers'
≥ 21-landmark guard. -/
def getFingerStates (lms : List Landmark) : List Bool :=
  let dflt : Landmark := (0, 0, 0)
  let thumb_tip_dist_sq := distSq (lms.getD 0 dflt) (lms.getD 4 dflt)
  let thumb_ip_dist_sq := distSq (lms.getD 0 dflt) (lms.getD 3 dflt)
  decide (thumb_ip_dist_sq < thumb_tip_dist_sq) ::
    [8, 12, 16, 20].map fun tip_id =>
      decide ((lms.getD tip_id dflt).2.2 < (lms.getD (tip_id - 2) dflt).2.2)

/-- The gesture chain of `recognize` (utils.py lines 249-276): the value of
the local `gesture` variable before temporal smoothing.  `sum(fingers)` is
the count of extended fingers. -/
def classifyChain (fingers : List Bool) (thumb_index_dist_sq : ℤ) : Gesture :=
  let thumb := fingers.getD 0 false
  let index := fingers.getD 1 false
  let middle := fingers.getD 2 false
  let ring := fingers.getD 3 false
  let pinky := fingers.getD 4 false
  if fingers.count true = 0 then .fist
  else if fingers.count true = 5 then .palm_open
  else if !thumb && index && middle && ring && pinky then .erase
  else if thumb_index_dist_sq < 1600 then .pinch
  else if index && !middle && !ring && !pinky then .draw
  else if index && middle && !ring && !pinky then .navigate
  else .none

/-- The raw (pre-smoothing) classification of a landmark frame. -/
def rawGesture (lms : List Landmark) : Gesture :=
  classifyChain (getFingerStates lms)
    (distSq (lms.getD 4 (0, 0, 0)) (lms.getD 8 (0, 0, 0)))

structure GestureRecognizer where
  gesture_history : List Gesture
  current_gesture : Gesture
  deriving DecidableEq

namespace GestureRecognizer

/-- The history majority vote (utils.py lines 281-282): a label of maximal
count in the 5-deep history.  The source's `max(set(...), key=count)` breaks
ties in unspecified Python set order (the spec flags this as an open
question); here ties break toward the earlier-scanned element.  No verified
claim depends on the tie order. -/
def majorityVote (h : List Gesture) (dflt : Gesture) : Gesture :=
  h.foldl (fun best g => if h.count best < h.count g then g else best) dflt

/-- `recognize` (utils.py lines 234-285): soft-fail on `not landmarks or
len(landmarks) < 21`; otherwise classify, push into the bounded history, and
return the history majority with confidence 1.0. -/
def recognize (r : GestureRecognizer) (lms : List Landmark) :
    (Gesture × ℚ) × GestureRecognizer :=
  if lms.isEmpty || lms.length < 21 then ((.none, 0), r)
  else
    let g := rawGesture lms
    let hist := dequeCons 5 g r.gesture_history
    let g' := if hist.isEmpty then g else majorityVote hist g
    ((g', 1), { gesture_history := hist, current_gesture := g' })

end GestureRecognizer

/-- Claim C7's seven precedence rules exactly as the spec words them, over the
five finger-extension booleans and the thumb-index proximity test, first match
winning. -/
def specSevenRules (thumb index middle ring pinky pinchClose : Bool) : Gesture :=
  if thumb = false ∧ index = false ∧ middle = false ∧ ring = false ∧ pinky = false then
    .fist
  else if thumb = true ∧ index = true ∧ middle = true ∧ ring = true ∧ pinky = true then
    .palm_open
  else if thumb = false ∧ index = true ∧ middle = true ∧ ring = true ∧ pinky = true then
    .erase
  else if pinchClose = true then .pinch
  else if index = true ∧ middle = false ∧ ring = false ∧ pinky = false then .draw
  else if index = true ∧ middle = true ∧ ring = false ∧ pinky = false then .navigate
  else .none

theorem classifyChain_eq_specSevenRules (t i m r p : Bool) (d : ℤ) :
    classifyChain [t, i, m, r, p] d = specSevenRules t i m r p (decide (d < 1600)) := by
  by_cases hd : d < 1600 <;>
    cases t <;> cases i <;> cases m <;> cases r <;> cases p <;>
    simp [classifyChain, specSevenRules, hd]

theorem getFingerStates_length (lms : List Landmark) :
    (getFingerStates lms).length = 5 := rfl

theorem list_bool_five (l : List Bool) (h : l.length = 5) :
    l = [l.getD 0 false, l.getD 1 false, l.getD 2 false, l.getD 3 false,
         l.getD 4 false] := by
  match l, h with
  | [a, b, c, d, e], _ => rfl

/-- C7: for every 21-landmark frame, the raw (pre-smoothing) classification
equals the spec's seven ordered first-match-wins rules evaluated on the
finger-state vector and the 40-pixel thumb-index proximity test; the
all-retracted vector yields `fist` and the all-extended vector `palm_open`
unconditionally, and the result is always one label of the closed set (the
chain is a total function, so exactly one label is returned). -/
theorem c7_raw_classification_follows_rules (lms : List Landmark)
    (_h : 21 ≤ lms.length) :
    (rawGesture lms =
      specSevenRules ((getFingerStates lms).getD 0 false)
        ((getFingerStates lms).getD 1 false) ((getFingerStates lms).getD 2 false)
        ((getFingerStates lms).getD 3 false) ((getFingerStates lms).getD 4 false)
        (decide (distSq (lms.getD 4 (0, 0, 0)) (lms.getD 8 (0, 0, 0)) < 1600))) ∧
    (getFingerStates lms = [false, false, false, false, false] →
      rawGesture lms = .fist) ∧
    (getFingerStates lms = [true, true, true, true, true] →
      rawGesture lms = .palm_open) ∧
    (rawGesture lms = .none ∨ rawGesture lms = .fist ∨ rawGesture lms = .palm_open ∨
      rawGesture lms = .erase ∨ rawGesture lms = .pinch ∨ rawGesture lms = .draw ∨
      rawGesture lms = .navigate) := by
  have hmain : rawGesture lms =
      specSevenRules ((getFingerStates lms).getD 0 false)
        ((getFingerStates lms).getD 1 false) ((getFingerStates lms).getD 2 false)
        ((getFingerStates lms).getD 3 false) ((getFingerStates lms).getD 4 false)
        (decide (distSq (lms.getD 4 (0, 0, 0)) (lms.getD 8 (0, 0, 0)) < 1600)) := by
    show classifyChain (getFingerStates lms) _ = _
    rw [list_bool_five (getFingerStates lms) (getFingerStates_length lms),
      classifyChain_eq_specSevenRules]
    simp
  refine ⟨hmain, ?_, ?_, ?_⟩
  · intro hall
    show classifyChain (getFingerStates lms) _ = _
    rw [hall, classifyChain_eq_specSevenRules]
    simp [specSevenRules]
  · intro hall
    show classifyChain (getFingerStates lms) _ = _
    rw [hall, classifyChain_eq_specSevenRules]
    simp [specSevenRules]
  · rcases hg : rawGesture lms <;> simp

/-- Witness for C7: the all-zero 21-landmark frame has every finger retracted
and is classified `fist`. -/
theorem c7_raw_classification_witness :
    21 ≤ (List.replicate 21 ((0, 0, 0) : Landmark)).length ∧
    rawGesture (List.replicate 21 ((0, 0, 0) : Landmark)) = .fist :=
  ⟨by norm_num,
   (c7_raw_classification_follows_rules (List.replicate 21 ((0, 0, 0) : Landmark))
      (by norm_num)).2.1 rfl⟩

/-- C10: `recognize` on any landmark list shorter than 21 entries (the empty
list included) returns exactly `(none, 0.0)` and leaves the recognizer state
untouched; the embedding is a total function, so no exception is possible. -/
theorem c10_recognize_soft_fails (r : GestureRecognizer) (lms : List Landmark)
    (h : lms.length < 21) :
    r.recognize lms = ((Gesture.none, 0), r) := by
  simp [GestureRecognizer.recognize, h]

/-- Witness for C10 at the empty list and at a 5-landmark list. -/
theorem c10_recognize_soft_fails_witness :
    ((⟨[], .none⟩ : GestureRecognizer).recognize [] = ((Gesture.none, 0), ⟨[], .none⟩)) ∧
    ((⟨[.draw], .draw⟩ : GestureRecognizer).recognize
        (List.replicate 5 (0, 0, 0)) = ((Gesture.none, 0), ⟨[.draw], .draw⟩)) :=
  ⟨c10_recognize_soft_fails ⟨[], .none⟩ [] (by norm_num),
   c10_recognize_soft_fails ⟨[.draw], .draw⟩ (List.replicate 5 (0, 0, 0)) (by norm_num)⟩

/-! ## Pinch color cycling (gui.py lines 52-55, 692-805)

The slice of `AirSigGUI.process_gestures` the pinch claims concern: the
SHARED `last_pinch_state` flag and `current_color_index`.  No other branch of
the per-hand dispatch reads or writes these two fields, so a hand is
represented by its dispatched gesture label.  `advances` is a ghost counter of
color-cycle advances, present only so the specification can count them. -/

def color_list : List String :=
  ["red", "blue", "green", "yellow", "cyan", "magenta", "white", "black"]

structure PinchState where
  last_pinch_state : Bool
  current_color_index : ℕ
  advances : ℕ
  deriving DecidableEq

/-- One hand's dispatch (gui.py lines 699-805): the `pinch` branch advances
the color cycle only when the shared flag is down, and raises it; the `else`
("Unknown") branch lowers the flag; the trailing
`if gesture != "pinch": last_pinch_state = False` runs for every hand. -/
def processHand (st : PinchState) (g : Gesture) : PinchState :=
  let st1 :=
    match g with
    | .pinch =>
        if !st.last_pinch_state then
          { st with
              current_color_index := (st.current_color_index + 1) % color_list.length
              last_pinch_state := true
              advances := st.advances + 1 }
        else st
    | .none => { st with last_pinch_state := false }
    | _ => st
  if g ≠ .pinch then { st1 with last_pinch_state := false } else st1

/-- One frame (gui.py lines 692-805): the hands are processed in detection
order; the early `if not hands_data: return` leaves the pinch state
untouched, exactly as the fold over zero hands does. -/
def processFrame (st : PinchState) (hands : List Gesture) : PinchState :=
  hands.foldl processHand st

def processFrames (st : PinchState) (frames : List (List Gesture)) : PinchState :=
  frames.foldl processFrame st

/-- Counterexample to C6: the flag is shared, not per-hand.  With a second
detected hand dispatched as `draw` after the pinching hand in every frame, a
pinch held for 10 consecutive frames advances the color cycle 10 times, not
once: the non-pinching hand's trailing reset lowers the shared flag each
frame. -/
theorem c6_shared_flag_counterexample :
    (processFrames ⟨false, 0, 0⟩
        (List.replicate 10 [Gesture.pinch, Gesture.draw])).advances = 10 ∧
    ¬ (processFrames ⟨false, 0, 0⟩
        (List.replicate 10 [Gesture.pinch, Gesture.draw])).advances = 1 := by
  decide

theorem processFrame_pinch_first (k a : ℕ) :
    processFrame ⟨false, k, a⟩ [Gesture.pinch] =
      ⟨true, (k + 1) % color_list.length, a + 1⟩ := rfl

theorem processFrame_pinch_held (k a : ℕ) :
    processFrame ⟨true, k, a⟩ [Gesture.pinch] = ⟨true, k, a⟩ := rfl

/-- C6 as amended: the edge trigger uses one shared previous-frame pinch flag;
when the pinching hand is the only detected hand, a pinch held across any
positive number of consecutive frames advances the color cycle exactly once
(to the next palette entry), not once per frame. -/
theorem c6_single_hand_pinch_advances_once (n c : ℕ) (h : 0 < n) :
    (processFrames ⟨false, c, 0⟩ (List.replicate n [Gesture.pinch])).advances = 1 ∧
    (processFrames ⟨false, c, 0⟩
        (List.replicate n [Gesture.pinch])).current_color_index =
      (c + 1) % color_list.length := by
  have hfix : ∀ (m k a : ℕ),
      processFrames ⟨true, k, a⟩ (List.replicate m [Gesture.pinch]) = ⟨true, k, a⟩ := by
    intro m
    induction m with
    | zero => intro k a; rfl
    | succ m' ih =>
        intro k a
        show processFrames (processFrame ⟨true, k, a⟩ [Gesture.pinch])
            (List.replicate m' [Gesture.pinch]) = ⟨true, k, a⟩
        rw [processFrame_pinch_held]
        exact ih k a
  obtain ⟨m, rfl⟩ : ∃ m, n = m + 1 := ⟨n - 1, by omega⟩
  have hstep : processFrames ⟨false, c, 0⟩ (List.replicate (m + 1) [Gesture.pinch])
      = ⟨true, (c + 1) % color_list.length, 1⟩ := by
    show processFrames (processFrame ⟨false, c, 0⟩ [Gesture.pinch])
        (List.replicate m [Gesture.pinch]) = _
    rw [processFrame_pinch_first]
    exact hfix m _ _
  rw [hstep]
  exact ⟨rfl, rfl⟩

/-- Witness for C6's amended theorem: a single hand holding a pinch for 10
frames advances the palette exactly once. -/
theorem c6_single_hand_pinch_witness :
    (0 < 10) ∧
    (processFrames ⟨false, 0, 0⟩
        (List.replicate 10 [Gesture.pinch])).advances = 1 :=
  ⟨by norm_num, (c6_single_hand_pinch_advances_once 10 0 (by norm_num)).1⟩

end AirSig
